import Mathlib

/-!
Verification development for the Apple2Apple dataset-comparison core
(`src/utils.py`).  The Python functions are shallowly embedded:

* pandas cell values become the tagged union `Val` (string / integer /
  missing), following the data model of the design document;
* a pandas `DataFrame` becomes a column-name list plus a list of
  association-list rows;
* `pd.to_datetime` on scalar strings is modelled by the executable parser
  `parseDT` (ISO-style dates `YYYY-MM-DD`, optionally followed by a
  `HH:MM:SS` time with optional `.ffffff` fraction and optional `+HH:MM`
  offset); `Timestamp.isoformat` is modelled by `formatIso`.
  `pd.to_datetime` on non-string scalars is not modelled: numeric values
  are treated as unparseable and pass through unchanged;
* Python `==` / `!=` on cell values (where `nan` compares unequal to
  everything, including itself) is modelled by `pyEq` / `pyNe`;
* a raised `KeyError` (missing column access) is modelled by the
  `Res.keyError` constructor;
* in-place mutation of the caller's dataframes (the null-token
  normalization of `tactic_id` / `tactic_nm`) is made explicit:
  `compare_dataframes_by_groups` returns, next to its result, the final
  caller-visible state of both dataframe arguments.
-/

/-- A scalar cell value: string, integer, or missing (`NaN`/`None`). -/
inductive Val : Type where
  | str (s : String)
  | int (n : Int)
  | na
deriving DecidableEq

/-- `pd.isna`. -/
def Val.isna : Val → Bool
  | .na => true
  | _ => false

/-- Python `==` on cell values: `nan` is unequal to everything, itself
included. -/
def pyEq : Val → Val → Bool
  | .na, _ => false
  | _, .na => false
  | .str a, .str b => a = b
  | .int a, .int b => a = b
  | .str _, .int _ => false
  | .int _, .str _ => false

/-- Python `!=` on cell values. -/
def pyNe (a b : Val) : Bool := !(pyEq a b)

/-- A dataframe row: association list from column name to cell value. -/
abbrev Row := List (String × Val)

/-- Cell access `row[col]` for a column known to be present; absent columns
yield the missing value (every call site in the source accesses only columns
of the dataframe the row came from). -/
def Row.getD (r : Row) (c : String) : Val :=
  match r.lookup c with
  | some v => v
  | none => Val.na

/-- A dataframe: ordered column names plus ordered rows. -/
structure DataFrame where
  cols : List String
  rows : List Row
deriving DecidableEq

/-- `col in df.columns`. -/
def DataFrame.hasCol (df : DataFrame) (c : String) : Bool :=
  decide (c ∈ df.cols)

/-- The values of one column, in row order (`df[col]`). -/
def colVals (df : DataFrame) (c : String) : List Val :=
  df.rows.map (fun r => r.getD c)

/-! ### Model of `pd.to_datetime` on scalar strings -/

/-- Numeric value of a decimal digit character. -/
def digitVal (c : Char) : Option Nat :=
  if 48 ≤ c.toNat ∧ c.toNat ≤ 57 then some (c.toNat - 48) else none

/-- The decimal digit character for `d < 10`. -/
def digitChar (d : Nat) : Char := Char.ofNat (48 + d)

/-- Parse exactly two decimal digits. -/
def parse2 : List Char → Option (Nat × List Char)
  | c1 :: c2 :: r =>
    match digitVal c1, digitVal c2 with
    | some d1, some d2 => some (d1 * 10 + d2, r)
    | _, _ => none
  | _ => none

/-- Parse exactly four decimal digits. -/
def parse4 : List Char → Option (Nat × List Char)
  | c1 :: c2 :: c3 :: c4 :: r =>
    match digitVal c1, digitVal c2, digitVal c3, digitVal c4 with
    | some d1, some d2, some d3, some d4 =>
        some (d1 * 1000 + d2 * 100 + d3 * 10 + d4, r)
    | _, _, _, _ => none
  | _ => none

/-- Parse exactly six decimal digits. -/
def parse6 : List Char → Option (Nat × List Char)
  | c1 :: c2 :: c3 :: c4 :: c5 :: c6 :: r =>
    match digitVal c1, digitVal c2, digitVal c3, digitVal c4, digitVal c5, digitVal c6 with
    | some d1, some d2, some d3, some d4, some d5, some d6 =>
        some (d1 * 100000 + d2 * 10000 + d3 * 1000 + d4 * 100 + d5 * 10 + d6, r)
    | _, _, _, _, _, _ => none
  | _ => none

/-- Consume one expected character. -/
def expectCh (c : Char) : List Char → Option (List Char)
  | c' :: r => if c' = c then some r else none
  | [] => none

/-- A parsed datetime (model of `pd.Timestamp`): calendar fields,
microseconds, and an optional `+HH:MM` timezone offset. -/
structure DT where
  year : Nat
  month : Nat
  day : Nat
  hour : Nat
  minute : Nat
  second : Nat
  micro : Nat
  tz : Option (Nat × Nat)
deriving DecidableEq

/-- Bounds every parsed datetime satisfies (also exactly what the
format/parse roundtrip needs). -/
def DT.validB (dt : DT) : Bool :=
  decide (dt.year < 10000) && decide (1 ≤ dt.month) && decide (dt.month ≤ 12) &&
  decide (1 ≤ dt.day) && decide (dt.day ≤ 31) &&
  decide (dt.hour < 24) && decide (dt.minute < 60) && decide (dt.second < 60) &&
  decide (dt.micro < 1000000) &&
  (match dt.tz with
   | none => true
   | some p => decide (p.1 < 100) && decide (p.2 < 100))

/-- Bounds on a parsed timezone offset. -/
def TZBounds : Option (Nat × Nat) → Prop
  | none => True
  | some p => p.1 < 100 ∧ p.2 < 100

/-- Parse an optional trailing `+HH:MM` timezone offset (must consume the
rest of the input). -/
def parseTZ : List Char → Option (Option (Nat × Nat))
  | [] => some none
  | c :: r =>
    if c = '+' then
      match parse2 r with
      | none => none
      | some (a, r2) =>
        match expectCh ':' r2 with
        | none => none
        | some r3 =>
          match parse2 r3 with
          | none => none
          | some (b, r4) => if r4 = [] then some (some (a, b)) else none
    else none

/-- Parse an optional `.ffffff` fraction followed by the optional timezone
offset. -/
def parseFracTZ (cs : List Char) : Option (Nat × Option (Nat × Nat)) :=
  if cs.head? = some '.' then
    match parse6 cs.tail with
    | none => none
    | some (f, r2) =>
      match parseTZ r2 with
      | none => none
      | some tz => some (f, tz)
  else
    match parseTZ cs with
    | none => none
    | some tz => some (0, tz)

/-- Model of `pd.to_datetime` on a scalar string: `YYYY-MM-DD`, optionally
followed by a space- or `T`-separated `HH:MM:SS` time, an optional
six-digit fraction and an optional `+HH:MM` offset.  Anything else fails
(in the source: raises, caught by the surrounding `except`). -/
def parseDT (cs : List Char) : Option DT :=
  match parse4 cs with
  | none => none
  | some (y, r1) =>
    match expectCh '-' r1 with
    | none => none
    | some r2 =>
      match parse2 r2 with
      | none => none
      | some (mo, r3) =>
        match expectCh '-' r3 with
        | none => none
        | some r4 =>
          match parse2 r4 with
          | none => none
          | some (d, r5) =>
            if 1 ≤ mo ∧ mo ≤ 12 ∧ 1 ≤ d ∧ d ≤ 31 then
              match r5 with
              | [] =>
                some { year := y, month := mo, day := d, hour := 0,
                       minute := 0, second := 0, micro := 0, tz := none }
              | sep :: r6 =>
                if sep = ' ' ∨ sep = 'T' then
                  match parse2 r6 with
                  | none => none
                  | some (h, r7) =>
                    match expectCh ':' r7 with
                    | none => none
                    | some r8 =>
                      match parse2 r8 with
                      | none => none
                      | some (mi, r9) =>
                        match expectCh ':' r9 with
                        | none => none
                        | some r10 =>
                          match parse2 r10 with
                          | none => none
                          | some (s, r11) =>
                            if h < 24 ∧ mi < 60 ∧ s < 60 then
                              match parseFracTZ r11 with
                              | none => none
                              | some (f, tz) =>
                                some { year := y, month := mo, day := d,
                                       hour := h, minute := mi, second := s,
                                       micro := f, tz := tz }
                            else none
                else none
            else none

/-- Two zero-padded decimal digits. -/
def pad2 (n : Nat) : List Char := [digitChar (n / 10), digitChar (n % 10)]

/-- Four zero-padded decimal digits. -/
def pad4 (n : Nat) : List Char :=
  [digitChar (n / 1000), digitChar (n / 100 % 10), digitChar (n / 10 % 10), digitChar (n % 10)]

/-- Six zero-padded decimal digits. -/
def pad6 (n : Nat) : List Char :=
  [digitChar (n / 100000), digitChar (n / 10000 % 10), digitChar (n / 1000 % 10),
   digitChar (n / 100 % 10), digitChar (n / 10 % 10), digitChar (n % 10)]

/-- The fractional part `isoformat` emits: nothing when the microseconds
are zero, else `.ffffff`. -/
def fracPart (micro : Nat) : List Char :=
  if micro = 0 then [] else '.' :: pad6 micro

/-- The timezone suffix `isoformat` emits. -/
def tzPart : Option (Nat × Nat) → List Char
  | none => []
  | some p => '+' :: (pad2 p.1 ++ ':' :: pad2 p.2)

/-- Model of `Timestamp.isoformat()`. -/
def formatIso (dt : DT) : List Char :=
  pad4 dt.year ++ '-' :: (pad2 dt.month ++ '-' :: (pad2 dt.day ++ 'T' ::
    (pad2 dt.hour ++ ':' :: (pad2 dt.minute ++ ':' ::
      (pad2 dt.second ++ (fracPart dt.micro ++ tzPart dt.tz))))))

/-- Model of `strftime('%Y-%m-%d')`. -/
def formatDateOnly (dt : DT) : List Char :=
  pad4 dt.year ++ '-' :: (pad2 dt.month ++ '-' :: pad2 dt.day)

/-- `.split('+')[0]`: the prefix before the first `'+'`. -/
def splitPlus (cs : List Char) : List Char :=
  cs.takeWhile (fun c => c ≠ '+')

/-- `dt` with its timezone information dropped. -/
def DT.dropTz (dt : DT) : DT :=
  { dt with tz := none }

/-! ### `normalize_date_or_timestamp`, `compare_values`, `get_change_type` -/

/-- The fast-path test of `normalize_date_or_timestamp`:
`isinstance(value, str) and len(value) > 19 and value[10] == ' ' and '+' in value`
(the string part of the test; `normalize_date_or_timestamp` applies it to
string values only). -/
def fastPathB (cs : List Char) : Bool :=
  decide (cs.length > 19) && (cs.get? 10 == some ' ') && cs.contains '+'

/-- Whether a value triggers the timezone fast path of
`normalize_date_or_timestamp`. -/
def isFastPath : Val → Bool
  | .str s => fastPathB s.data
  | _ => false

/-- `normalize_date_or_timestamp` (src/utils.py lines 95-126).  Missing
values pass through; the fast path truncates timezone-qualified timestamp
strings to their first ten characters; otherwise full datetime parsing
yields the ISO form with any `+`-suffix stripped; otherwise date-only
parsing (the same parser; see `normalize_no_date_stage`) yields
`%Y-%m-%d`; otherwise the value is returned unchanged. -/
def normalize_date_or_timestamp (value : Val) : Val :=
  match value with
  | .na => .na
  | .int _ => value
  | .str s =>
    if fastPathB s.data then .str (String.mk (s.data.take 10))
    else
      match parseDT s.data with
      | some dt => .str (String.mk (splitPlus (formatIso dt)))
      | none =>
        match parseDT s.data with
        | some dt => .str (String.mk (formatDateOnly dt))
        | none => value

/-- Variant of `normalize_date_or_timestamp` whose chain ends after the
full-datetime stage, falling through to the input unchanged (the function
the specification conjectures to be extensionally equal to the source;
the final date-only stage is dropped). -/
def normalize_no_date_stage (value : Val) : Val :=
  match value with
  | .na => .na
  | .int _ => value
  | .str s =>
    if fastPathB s.data then .str (String.mk (s.data.take 10))
    else
      match parseDT s.data with
      | some dt => .str (String.mk (splitPlus (formatIso dt)))
      | none => value

/-- `compare_values` (src/utils.py lines 128-144). -/
def compare_values (val1 val2 : Val) : Bool :=
  if val1.isna && val2.isna then true
  else
    let norm_val1 := normalize_date_or_timestamp val1
    let norm_val2 := normalize_date_or_timestamp val2
    if pyNe norm_val1 val1 || pyNe norm_val2 val2 then pyEq norm_val1 norm_val2
    else pyEq val1 val2

/-- `get_change_type` (src/utils.py lines 372-388). -/
def get_change_type (val1 val2 : Val) : String :=
  if val1.isna && !val2.isna then "Value Added"
  else if !val1.isna && val2.isna then "Value Removed"
  else if val1.isna && val2.isna then "No Change"
  else if pyEq (normalize_date_or_timestamp val1) (normalize_date_or_timestamp val2) then
    "No Change"
  else "Value Modified"

/-! ### Result structures -/

/-- One cell-level difference record (the dict built at src/utils.py
lines 318-327, 339-348 and 356-365; Python `None` in `tactic_id` and the
`"NULL"` / `"ROW_ADDED"` / `"ROW_REMOVED"` markers are `Val`s). -/
structure CellChange where
  dataset_id : Val
  tactic_id : Val
  recency_flag : Val
  Row_Index : Option Nat
  Column : String
  File_A_Value : Val
  File_B_Value : Val
  Change_Type : String
deriving DecidableEq

/-- Result of `compare_tactic_recency_combination`. -/
structure ComboResult where
  has_changes : Bool
  cell_changes : List CellChange
deriving DecidableEq

/-- One entry of `unmatched_combinations` (src/utils.py lines 205-210). -/
structure DisplayData where
  dataset_id : Val
  tactic_id : Val
  recency_flag : Val
  count : Nat
deriving DecidableEq

/-- Result of `compare_groups_by_tactic_recency`.  An entry of
`tactic_recency_changes` is the stored per-combination record, modelled as
the association list of the dict built at src/utils.py lines 247-249. -/
structure GroupResult where
  has_changes : Bool
  tactic_recency_changes : List ((Val × Val) × List (String × List CellChange))
  unmatched_only_in_group1 : List DisplayData
  unmatched_only_in_group2 : List DisplayData
  cell_changes : List CellChange
  group1_tactic_recency_count : Nat
  group2_tactic_recency_count : Nat
  combos_only_in_group1 : List (Val × Val)
  combos_only_in_group2 : List (Val × Val)
  common_combos : List (Val × Val)
deriving DecidableEq

/-- The `column_differences` part of the result (Python sets modelled as
duplicate-free lists). -/
structure ColDiff where
  only_in_df1 : List String
  only_in_df2 : List String
  common : List String
deriving DecidableEq

/-- The root comparison result (src/utils.py lines 86-93). -/
structure CompareResult where
  groups_only_in_df1 : List Val
  groups_only_in_df2 : List Val
  modified_groups : List (Val × GroupResult)
  identical_groups : List Val
  column_differences : ColDiff
  validation_messages : List String
deriving DecidableEq

/-- Outcome of a call that can raise `KeyError` on a missing column. -/
inductive Res (α : Type) where
  | ok (val : α)
  | keyError (col : String)
deriving DecidableEq

/-! ### `compare_tactic_recency_combination` -/

/-- The cell-change record for one differing paired cell
(src/utils.py lines 318-327). -/
def mkPairChange (did tid rf : Val) (ridx : Option Nat) (c : String) (v1 v2 : Val) :
    CellChange :=
  { dataset_id := did, tactic_id := tid, recency_flag := rf, Row_Index := ridx,
    Column := c,
    File_A_Value := if v1.isna then Val.str "NULL" else v1,
    File_B_Value := if v2.isna then Val.str "NULL" else v2,
    Change_Type := get_change_type v1 v2 }

/-- The inner column loop over one pair of rows (src/utils.py
lines 303-327): skip `description`, skip both-missing cells, emit a cell
change when `compare_values` fails. -/
def rowPairChanges (did tid rf : Val) (showIdx : Bool) (i : Nat) (cols : List String)
    (row1 row2 : Row) : List CellChange :=
  cols.filterMap fun c =>
    if c = "description" then none
    else
      let v1 := row1.getD c
      let v2 := row2.getD c
      if v1.isna && v2.isna then none
      else if compare_values v1 v2 then none
      else some (mkPairChange did tid rf (if showIdx then some i else none) c v1 v2)

/-- The paired-row loop `for row_idx in range(min_rows)` (src/utils.py
lines 299-327), recursing over both row lists simultaneously. -/
def pairedChanges (did tid rf : Val) (showIdx : Bool) (cols : List String) :
    Nat → List Row → List Row → List CellChange
  | _, [], _ => []
  | _, _ :: _, [] => []
  | i, r1 :: rs1, r2 :: rs2 =>
    rowPairChanges did tid rf showIdx i cols r1 r2 ++
      pairedChanges did tid rf showIdx cols (i + 1) rs1 rs2

/-- Forced cell changes for one extra row of File A (src/utils.py
lines 336-348). -/
def removedRowChanges (did tid rf : Val) (cols : List String) (i : Nat) (row1 : Row) :
    List CellChange :=
  cols.filterMap fun c =>
    if c = "description" then none
    else
      some { dataset_id := did, tactic_id := tid, recency_flag := rf,
             Row_Index := some i, Column := c,
             File_A_Value := if (row1.getD c).isna then Val.str "NULL" else row1.getD c,
             File_B_Value := Val.str "ROW_REMOVED",
             Change_Type := "Row Removed" }

/-- Forced cell changes for the extra rows of File A. -/
def removedChanges (did tid rf : Val) (cols : List String) :
    Nat → List Row → List CellChange
  | _, [] => []
  | i, r :: rs =>
    removedRowChanges did tid rf cols i r ++ removedChanges did tid rf cols (i + 1) rs

/-- Forced cell changes for one extra row of File B (src/utils.py
lines 353-365). -/
def addedRowChanges (did tid rf : Val) (cols : List String) (i : Nat) (row2 : Row) :
    List CellChange :=
  cols.filterMap fun c =>
    if c = "description" then none
    else
      some { dataset_id := did, tactic_id := tid, recency_flag := rf,
             Row_Index := some i, Column := c,
             File_A_Value := Val.str "ROW_ADDED",
             File_B_Value := if (row2.getD c).isna then Val.str "NULL" else row2.getD c,
             Change_Type := "Row Added" }

/-- Forced cell changes for the extra rows of File B. -/
def addedChanges (did tid rf : Val) (cols : List String) :
    Nat → List Row → List CellChange
  | _, [] => []
  | i, r :: rs =>
    addedRowChanges did tid rf cols i r ++ addedChanges did tid rf cols (i + 1) rs

/-- `compare_tactic_recency_combination` (src/utils.py lines 270-370). -/
def compare_tactic_recency_combination (rows1 rows2 : List Row) (tactic_id recency_flag : Val)
    (common_columns : List String) (dataset_id : Val) : ComboResult :=
  let n1 := rows1.length
  let n2 := rows2.length
  let minRows := min n1 n2
  let maxRows := max n1 n2
  let paired := pairedChanges dataset_id tactic_id recency_flag (decide (maxRows > 1))
    common_columns 0 rows1 rows2
  let extra :=
    if n1 = n2 then []
    else if n1 > n2 then
      removedChanges dataset_id tactic_id recency_flag common_columns minRows
        (rows1.drop minRows)
    else
      addedChanges dataset_id tactic_id recency_flag common_columns minRows
        (rows2.drop minRows)
  { has_changes := !paired.isEmpty || decide (n1 ≠ n2),
    cell_changes := paired ++ extra }

/-! ### Sorting (model of `DataFrame.sort_values`) -/

/-- Ordering on cell values as sort keys, missing values last
(`na_position='last'`); strings and integers each ordered naturally
(the source never mixes types within one key column). -/
def Val.keyCmp : Val → Val → Ordering
  | .na, .na => .eq
  | .na, _ => .gt
  | _, .na => .lt
  | .int a, .int b => compare a b
  | .str a, .str b => compare a b
  | .int _, .str _ => .lt
  | .str _, .int _ => .gt

/-- Insert into a sorted list (stable: existing elements with an equal key
stay in front). -/
def insertLe {α : Type} (le : α → α → Bool) (x : α) : List α → List α
  | [] => [x]
  | y :: ys => if le x y then x :: y :: ys else y :: insertLe le x ys

/-- Insertion sort. -/
def sortLe {α : Type} (le : α → α → Bool) : List α → List α
  | [] => []
  | x :: xs => insertLe le x (sortLe le xs)

/-- Row order of `sort_values(['tactic_id', 'recency_flag'])`. -/
def rowLe2 (r1 r2 : Row) : Bool :=
  ((Val.keyCmp (r1.getD "tactic_id") (r2.getD "tactic_id")).then
    (Val.keyCmp (r1.getD "recency_flag") (r2.getD "recency_flag"))) != Ordering.gt

/-- Row order of `sort_values(['dataset_id', 'tactic_id', 'recency_flag'])`. -/
def rowLe3 (r1 r2 : Row) : Bool :=
  ((Val.keyCmp (r1.getD "dataset_id") (r2.getD "dataset_id")).then
    ((Val.keyCmp (r1.getD "tactic_id") (r2.getD "tactic_id")).then
      (Val.keyCmp (r1.getD "recency_flag") (r2.getD "recency_flag")))) != Ordering.gt

/-! ### `compare_groups_by_tactic_recency` -/

/-- `Series.fillna`: replace a missing value by a default. -/
def fillNA (v d : Val) : Val := if v.isna then d else v

/-- The combination key of one row (src/utils.py lines 169-176): the
`tactic_id` with missing filled by the literal `'NULL'`, paired with the
`recency_flag`.  (The source stores the keys in a transient `_combo_key`
column of the working copy; here they are computed on demand, which is
observationally the same since the column is dropped again before any row
content is compared.) -/
def comboKey (r : Row) : Val × Val :=
  (fillNA (r.getD "tactic_id") (Val.str "NULL"), r.getD "recency_flag")

/-- `tactic_id if tactic_id != 'NULL' else None` (src/utils.py
lines 207, 223, 240). -/
def dispTactic (t : Val) : Val :=
  if t = Val.str "NULL" then Val.na else t

/-- `compare_groups_by_tactic_recency` (src/utils.py lines 146-268).
Python set iteration order is unspecified; the model iterates combination
keys in first-appearance order of the sorted groups. -/
def compare_groups_by_tactic_recency (group1 group2 : List Row) (dataset_id : Val)
    (common_columns : List String) : GroupResult :=
  let cols := common_columns.filter (fun c => c ≠ "description")
  let g1 := sortLe rowLe2 group1
  let g2 := sortLe rowLe2 group2
  let combos1 := (g1.map comboKey).dedup
  let combos2 := (g2.map comboKey).dedup
  let only1 := combos1.filter (fun k => !decide (k ∈ combos2))
  let only2 := combos2.filter (fun k => !decide (k ∈ combos1))
  let common := combos1.filter (fun k => decide (k ∈ combos2))
  let unmatched1 := only1.flatMap fun k =>
    (g1.filter (fun r => comboKey r = k)).map fun _ =>
      ({ dataset_id := dataset_id, tactic_id := dispTactic k.1, recency_flag := k.2,
         count := 1 } : DisplayData)
  let unmatched2 := only2.flatMap fun k =>
    (g2.filter (fun r => comboKey r = k)).map fun _ =>
      ({ dataset_id := dataset_id, tactic_id := dispTactic k.1, recency_flag := k.2,
         count := 1 } : DisplayData)
  let comboResults := common.map fun k =>
    let rows1 := g1.filter (fun r => comboKey r = k)
    let rows2 := g2.filter (fun r => comboKey r = k)
    (k, compare_tactic_recency_combination rows1 rows2 (dispTactic k.1) k.2 cols dataset_id)
  let changed := comboResults.filter (fun p => p.2.has_changes)
  { has_changes := !only1.isEmpty || !only2.isEmpty || !changed.isEmpty,
    tactic_recency_changes := changed.map (fun p => (p.1, [("cell_changes", p.2.cell_changes)])),
    unmatched_only_in_group1 := unmatched1,
    unmatched_only_in_group2 := unmatched2,
    cell_changes := changed.flatMap (fun p => p.2.cell_changes),
    group1_tactic_recency_count := combos1.length,
    group2_tactic_recency_count := combos2.length,
    combos_only_in_group1 := only1,
    combos_only_in_group2 := only2,
    common_combos := common }

/-! ### `compare_dataframes_by_groups` -/

/-- The null-token replacement applied to `tactic_id` / `tactic_nm`
values: `replace(['', 'NULL', 'null', 'None'], np.nan)`. -/
def replaceTok (v : Val) : Val :=
  match v with
  | .str s => if s = "" ∨ s = "NULL" ∨ s = "null" ∨ s = "None" then .na else v
  | _ => v

/-- Apply a function to the value stored under one key of a row. -/
def rowMapCol (c : String) (f : Val → Val) (r : Row) : Row :=
  r.map (fun kv => (kv.1, if kv.1 = c then f kv.2 else kv.2))

/-- Apply a function to one column of a dataframe
(`df[c] = df[c].apply-like assignment`). -/
def DataFrame.mapCol (df : DataFrame) (c : String) (f : Val → Val) : DataFrame :=
  { df with rows := df.rows.map (rowMapCol c f) }

/-- The per-row effect of the orchestrator's null-token normalization
(first `tactic_id`, then `tactic_nm`). -/
def rowNormalizeTactics (r : Row) : Row :=
  rowMapCol "tactic_nm" replaceTok (rowMapCol "tactic_id" replaceTok r)

/-- The in-place null-token normalization of src/utils.py lines 22-24,
applied to one dataframe: `df['tactic_id'] = df['tactic_id'].replace(...)`
then the same for `tactic_nm`.  Returns the outcome together with the
caller-visible state of the dataframe (mutated up to the point of a
`KeyError`, if any). -/
def replaceNullTokens (df : DataFrame) : Res Unit × DataFrame :=
  if df.hasCol "tactic_id" then
    let df1 := df.mapCol "tactic_id" replaceTok
    if df1.hasCol "tactic_nm" then (.ok (), df1.mapCol "tactic_nm" replaceTok)
    else (.keyError "tactic_nm", df1)
  else (.keyError "tactic_id", df)

/-- The NULL-`tactic_id` validation message for one file (src/utils.py
lines 27-30). -/
def nullTacticMsgs (df : DataFrame) (file_name : String) : List String :=
  let n := (df.rows.filter (fun r => (r.getD "tactic_id").isna)).length
  if n > 0 then
    ["⚠️ " ++ file_name ++ " contains " ++ toString n ++ " rows with NULL tactic_id values"]
  else []

/-- The missing-key-columns validation message for one file (src/utils.py
lines 32-37). -/
def missingColsMsgs (file_name : String) (df : DataFrame) : List String :=
  let missing := ["tactic_id", "tactic_nm", "dataset_id", "dataset_nm"].filter
    (fun c => !df.hasCol c)
  if !missing.isEmpty then
    ["⚠️ " ++ file_name ++ " is missing the following key columns: " ++
      String.intercalate ", " missing]
  else []

/-- `df[df['recency_flag'] == 'history']` (src/utils.py lines 40-41);
raises `KeyError` when the column is absent. -/
def filterHistory (df : DataFrame) : Res DataFrame :=
  if df.hasCol "recency_flag" then
    .ok { df with rows := df.rows.filter (fun r => pyEq (r.getD "recency_flag") (Val.str "history")) }
  else .keyError "recency_flag"

/-- `df.sort_values(['dataset_id', 'tactic_id', 'recency_flag'])`
(src/utils.py lines 44-45); raises `KeyError` when a key column is absent.
(`sort_values` uses an unstable quicksort; the model uses a stable
insertion sort — no claim depends on the order of equal-key rows.) -/
def sortDf (df : DataFrame) : Res DataFrame :=
  if df.hasCol "dataset_id" && df.hasCol "tactic_id" && df.hasCol "recency_flag" then
    .ok { df with rows := sortLe rowLe3 df.rows }
  else if !df.hasCol "dataset_id" then .keyError "dataset_id"
  else if !df.hasCol "tactic_id" then .keyError "tactic_id"
  else .keyError "recency_flag"

/-- `column_differences` (src/utils.py lines 56-68): both column sets with
`description` discarded, then set differences and intersection. -/
def columnDifferences (df1 df2 : DataFrame) : ColDiff :=
  let c1 := df1.cols.dedup.erase "description"
  let c2 := df2.cols.dedup.erase "description"
  { only_in_df1 := c1.filter (fun c => !decide (c ∈ c2)),
    only_in_df2 := c2.filter (fun c => !decide (c ∈ c1)),
    common := c1.filter (fun c => decide (c ∈ c2)) }

/-- The group-comparison loop and result assembly of
`compare_dataframes_by_groups` (src/utils.py lines 47-93), on the two
already-normalized, filtered and sorted dataframes. -/
def comparePhase (msgs : List String) (f1 f2 : DataFrame) : CompareResult :=
  let ids1 := (colVals f1 "dataset_id").dedup
  let ids2 := (colVals f2 "dataset_id").dedup
  let only1 := ids1.filter (fun i => !decide (i ∈ ids2))
  let only2 := ids2.filter (fun i => !decide (i ∈ ids1))
  let common := ids1.filter (fun i => decide (i ∈ ids2))
  let cd := columnDifferences f1 f2
  let comboPairs := common.map fun dataset_id =>
    (dataset_id,
     compare_groups_by_tactic_recency
       (f1.rows.filter (fun r => pyEq (r.getD "dataset_id") dataset_id))
       (f2.rows.filter (fun r => pyEq (r.getD "dataset_id") dataset_id))
       dataset_id cd.common)
  { groups_only_in_df1 := only1,
    groups_only_in_df2 := only2,
    modified_groups := comboPairs.filter (fun p => p.2.has_changes),
    identical_groups := (comboPairs.filter (fun p => !p.2.has_changes)).map Prod.fst,
    column_differences := cd,
    validation_messages := msgs }

/-- Validation, history filtering, sorting and group comparison — the body
of `compare_dataframes_by_groups` from line 26 on, acting on the two
already token-normalized dataframes. -/
def runComparison (dfA1 dfB1 : DataFrame) : Res CompareResult :=
  let msgs := nullTacticMsgs dfA1 "File A" ++ nullTacticMsgs dfB1 "File B" ++
    missingColsMsgs "File A" dfA1 ++ missingColsMsgs "File B" dfB1
  match filterHistory dfA1 with
  | .keyError c => .keyError c
  | .ok h1 =>
    match filterHistory dfB1 with
    | .keyError c => .keyError c
    | .ok h2 =>
      match sortDf h1 with
      | .keyError c => .keyError c
      | .ok f1 =>
        match sortDf h2 with
        | .keyError c => .keyError c
        | .ok f2 => .ok (comparePhase msgs f1 f2)

/-- `compare_dataframes_by_groups` (src/utils.py lines 5-93).  Returns the
comparison outcome (a raised `KeyError` is `Res.keyError`) together with
the caller-visible final state of the two dataframe arguments, in order
(lines 22-24 mutate the caller's dataframes in place; everything after
line 40 rebinds the locals to fresh copies). -/
def compare_dataframes_by_groups (dfA dfB : DataFrame) :
    Res CompareResult × DataFrame × DataFrame :=
  match replaceNullTokens dfA with
  | (.keyError c, dfA1) => (.keyError c, dfA1, dfB)
  | (.ok _, dfA1) =>
    match replaceNullTokens dfB with
    | (.keyError c, dfB1) => (.keyError c, dfA1, dfB1)
    | (.ok _, dfB1) => (runComparison dfA1 dfB1, dfA1, dfB1)

/-! ### Concrete inputs used by witnesses and counterexamples -/

/-- A sample row: `dataset_id=1, tactic_id=5, recency_flag=history, col=10`
plus the descriptive columns. -/
def rowS (c : Int) : Row :=
  [("dataset_id", Val.int 1), ("dataset_nm", Val.str "d"), ("tactic_id", Val.int 5),
   ("tactic_nm", Val.str "t"), ("channel_nm", Val.str "ch"),
   ("recency_flag", Val.str "history"), ("col", Val.int c)]

/-- Sample dataframe with one history row whose `col` is `c`. -/
def dfS (c : Int) : DataFrame :=
  { cols := ["dataset_id", "dataset_nm", "tactic_id", "tactic_nm", "channel_nm",
             "recency_flag", "col"],
    rows := [rowS c] }

/-- A dataframe lacking the `tactic_id` column. -/
def dfNoTactic : DataFrame :=
  { cols := ["dataset_id", "dataset_nm", "tactic_nm", "recency_flag"],
    rows := [[("dataset_id", Val.int 1), ("dataset_nm", Val.str "d"),
              ("tactic_nm", Val.str "t"), ("recency_flag", Val.str "history")]] }

/-- A dataframe whose `tactic_id` column holds the literal token `"NULL"`. -/
def dfTok : DataFrame :=
  { cols := ["dataset_id", "dataset_nm", "tactic_id", "tactic_nm", "channel_nm",
             "recency_flag", "col"],
    rows := [[("dataset_id", Val.int 1), ("dataset_nm", Val.str "d"),
              ("tactic_id", Val.str "NULL"), ("tactic_nm", Val.str "t"),
              ("channel_nm", Val.str "ch"), ("recency_flag", Val.str "history"),
              ("col", Val.int 10)]] }

/-- Extract the result of a successful comparison (used to name concrete
results in closed statements). -/
def resOf (x : Res CompareResult) : CompareResult :=
  match x with
  | .ok r => r
  | .keyError _ => { groups_only_in_df1 := [], groups_only_in_df2 := [],
                     modified_groups := [], identical_groups := [],
                     column_differences := { only_in_df1 := [], only_in_df2 := [], common := [] },
                     validation_messages := [] }

/-- The concrete result of comparing `dfS 10` with `dfS 20`. -/
def resS : CompareResult := resOf (compare_dataframes_by_groups (dfS 10) (dfS 20)).1

/-- A row whose `tactic_id` is the empty string. -/
def rowEmptyTok : Row := [("tactic_id", Val.str ""), ("recency_flag", Val.str "history")]

/-- A row whose `tactic_id` is the literal token `"NULL"`. -/
def rowNullTok : Row := [("tactic_id", Val.str "NULL"), ("recency_flag", Val.str "history")]


/-! ### Parser lemmas -/

theorem digitVal_digitChar {d : Nat} (h : d < 10) : digitVal (digitChar d) = some d := by
  interval_cases d <;> decide

theorem digitVal_lt {c : Char} {d : Nat} (h : digitVal c = some d) : d < 10 := by
  unfold digitVal at h
  split at h
  · injection h with h'
    omega
  · exact absurd h (by simp)

theorem digitChar_ne_plus {d : Nat} (h : d < 10) : digitChar d ≠ '+' := by
  interval_cases d <;> decide

theorem parse2_pad2 {n : Nat} (h : n < 100) (r : List Char) :
    parse2 (pad2 n ++ r) = some (n, r) := by
  have h1 : n / 10 < 10 := by omega
  have h2 : n % 10 < 10 := by omega
  simp [pad2, parse2, digitVal_digitChar h1, digitVal_digitChar h2]
  omega

theorem parse4_pad4 {n : Nat} (h : n < 10000) (r : List Char) :
    parse4 (pad4 n ++ r) = some (n, r) := by
  have h1 : n / 1000 < 10 := by omega
  have h2 : n / 100 % 10 < 10 := by omega
  have h3 : n / 10 % 10 < 10 := by omega
  have h4 : n % 10 < 10 := by omega
  simp [pad4, parse4, digitVal_digitChar h1, digitVal_digitChar h2, digitVal_digitChar h3,
    digitVal_digitChar h4]
  omega

theorem parse6_pad6 {n : Nat} (h : n < 1000000) (r : List Char) :
    parse6 (pad6 n ++ r) = some (n, r) := by
  have h1 : n / 100000 < 10 := by omega
  have h2 : n / 10000 % 10 < 10 := by omega
  have h3 : n / 1000 % 10 < 10 := by omega
  have h4 : n / 100 % 10 < 10 := by omega
  have h5 : n / 10 % 10 < 10 := by omega
  have h6 : n % 10 < 10 := by omega
  simp [pad6, parse6, digitVal_digitChar h1, digitVal_digitChar h2, digitVal_digitChar h3,
    digitVal_digitChar h4, digitVal_digitChar h5, digitVal_digitChar h6]
  omega

theorem parse2_bound {cs : List Char} {n : Nat} {r : List Char}
    (h : parse2 cs = some (n, r)) : n < 100 := by
  match cs with
  | [] => simp [parse2] at h
  | [c] => simp [parse2] at h
  | c1 :: c2 :: t =>
    simp only [parse2] at h
    cases hd1 : digitVal c1 with
    | none => rw [hd1] at h; simp at h
    | some d1 =>
      cases hd2 : digitVal c2 with
      | none => rw [hd1, hd2] at h; simp at h
      | some d2 =>
        rw [hd1, hd2] at h
        simp at h
        have b1 := digitVal_lt hd1
        have b2 := digitVal_lt hd2
        omega

theorem parse4_bound {cs : List Char} {n : Nat} {r : List Char}
    (h : parse4 cs = some (n, r)) : n < 10000 := by
  match cs with
  | [] => simp [parse4] at h
  | [c] => simp [parse4] at h
  | [c, c'] => simp [parse4] at h
  | [c, c', c''] => simp [parse4] at h
  | c1 :: c2 :: c3 :: c4 :: t =>
    simp only [parse4] at h
    cases hd1 : digitVal c1 with
    | none => rw [hd1] at h; simp at h
    | some d1 =>
      cases hd2 : digitVal c2 with
      | none => rw [hd1, hd2] at h; simp at h
      | some d2 =>
        cases hd3 : digitVal c3 with
        | none => rw [hd1, hd2, hd3] at h; simp at h
        | some d3 =>
          cases hd4 : digitVal c4 with
          | none => rw [hd1, hd2, hd3, hd4] at h; simp at h
          | some d4 =>
            rw [hd1, hd2, hd3, hd4] at h
            simp at h
            have b1 := digitVal_lt hd1
            have b2 := digitVal_lt hd2
            have b3 := digitVal_lt hd3
            have b4 := digitVal_lt hd4
            omega

theorem parse6_bound {cs : List Char} {n : Nat} {r : List Char}
    (h : parse6 cs = some (n, r)) : n < 1000000 := by
  match cs with
  | [] => simp [parse6] at h
  | [c] => simp [parse6] at h
  | [c, c'] => simp [parse6] at h
  | [c, c', c''] => simp [parse6] at h
  | [c, c', c'', c'''] => simp [parse6] at h
  | [c, c', c'', c''', c''''] => simp [parse6] at h
  | c1 :: c2 :: c3 :: c4 :: c5 :: c6 :: t =>
    simp only [parse6] at h
    cases hd1 : digitVal c1 with
    | none => rw [hd1] at h; simp at h
    | some d1 =>
      cases hd2 : digitVal c2 with
      | none => rw [hd1, hd2] at h; simp at h
      | some d2 =>
        cases hd3 : digitVal c3 with
        | none => rw [hd1, hd2, hd3] at h; simp at h
        | some d3 =>
          cases hd4 : digitVal c4 with
          | none => rw [hd1, hd2, hd3, hd4] at h; simp at h
          | some d4 =>
            cases hd5 : digitVal c5 with
            | none => rw [hd1, hd2, hd3, hd4, hd5] at h; simp at h
            | some d5 =>
              cases hd6 : digitVal c6 with
              | none => rw [hd1, hd2, hd3, hd4, hd5, hd6] at h; simp at h
              | some d6 =>
                rw [hd1, hd2, hd3, hd4, hd5, hd6] at h
                simp at h
                have b1 := digitVal_lt hd1
                have b2 := digitVal_lt hd2
                have b3 := digitVal_lt hd3
                have b4 := digitVal_lt hd4
                have b5 := digitVal_lt hd5
                have b6 := digitVal_lt hd6
                omega

theorem expectCh_cons (c : Char) (r : List Char) : expectCh c (c :: r) = some r := by
  simp [expectCh]

theorem parse2_pad2_nil {n : Nat} (h : n < 100) : parse2 (pad2 n) = some (n, []) := by
  simpa using parse2_pad2 h []

theorem parseTZ_bound {cs : List Char} {a b : Nat}
    (h : parseTZ cs = some (some (a, b))) : a < 100 ∧ b < 100 := by
  match cs with
  | [] =>
    simp [parseTZ] at h
  | c :: r =>
    simp only [parseTZ] at h
    by_cases hc : c = '+'
    · rw [if_pos hc] at h
      cases h2 : parse2 r with
      | none => rw [h2] at h; simp at h
      | some p =>
        obtain ⟨a', r2⟩ := p
        rw [h2] at h
        simp only [] at h
        cases h3 : expectCh ':' r2 with
        | none => rw [h3] at h; simp at h
        | some r3 =>
          rw [h3] at h
          simp only [] at h
          cases h4 : parse2 r3 with
          | none => rw [h4] at h; simp at h
          | some q =>
            obtain ⟨b', r4⟩ := q
            rw [h4] at h
            simp only [] at h
            by_cases hr4 : r4 = []
            · rw [if_pos hr4] at h
              simp at h
              obtain ⟨ha', hb'⟩ := h
              subst ha'; subst hb'
              exact ⟨parse2_bound h2, parse2_bound h4⟩
            · rw [if_neg hr4] at h; simp at h
    · rw [if_neg hc] at h; simp at h

theorem parseFracTZ_bound_frac {cs : List Char} {f : Nat} {tz : Option (Nat × Nat)}
    (h : parseFracTZ cs = some (f, tz)) : f < 1000000 := by
  unfold parseFracTZ at h
  by_cases hd : cs.head? = some '.'
  · rw [if_pos hd] at h
    cases h6 : parse6 cs.tail with
    | none => rw [h6] at h; simp at h
    | some p =>
      obtain ⟨f', r2⟩ := p
      rw [h6] at h
      simp only [] at h
      cases htz : parseTZ r2 with
      | none => rw [htz] at h; simp at h
      | some tz' =>
        rw [htz] at h
        simp at h
        obtain ⟨hf', _⟩ := h
        subst hf'
        exact parse6_bound h6
  · rw [if_neg hd] at h
    cases htz : parseTZ cs with
    | none => rw [htz] at h; simp at h
    | some tz' =>
      rw [htz] at h
      simp at h
      omega

theorem parseFracTZ_bound_tz {cs : List Char} {f a b : Nat}
    (h : parseFracTZ cs = some (f, some (a, b))) : a < 100 ∧ b < 100 := by
  unfold parseFracTZ at h
  by_cases hd : cs.head? = some '.'
  · rw [if_pos hd] at h
    cases h6 : parse6 cs.tail with
    | none => rw [h6] at h; simp at h
    | some p =>
      obtain ⟨f', r2⟩ := p
      rw [h6] at h
      simp only [] at h
      cases htz : parseTZ r2 with
      | none => rw [htz] at h; simp at h
      | some tz' =>
        rw [htz] at h
        simp at h
        obtain ⟨_, htz'⟩ := h
        subst htz'
        exact parseTZ_bound htz
  · rw [if_neg hd] at h
    cases htz : parseTZ cs with
    | none => rw [htz] at h; simp at h
    | some tz' =>
      rw [htz] at h
      simp at h
      obtain ⟨_, htz'⟩ := h
      subst htz'
      exact parseTZ_bound htz

theorem parseDT_validB {cs : List Char} {dt : DT} (heq : parseDT cs = some dt) :
    dt.validB = true := by
  unfold parseDT at heq
  cases h4 : parse4 cs with
  | none => rw [h4] at heq; simp at heq
  | some p =>
    obtain ⟨y, r1⟩ := p
    rw [h4] at heq
    simp only [] at heq
    cases h5 : expectCh '-' r1 with
    | none => rw [h5] at heq; simp at heq
    | some r2 =>
      rw [h5] at heq
      simp only [] at heq
      cases h6 : parse2 r2 with
      | none => rw [h6] at heq; simp at heq
      | some p2 =>
        obtain ⟨mo, r3⟩ := p2
        rw [h6] at heq
        simp only [] at heq
        cases h7 : expectCh '-' r3 with
        | none => rw [h7] at heq; simp at heq
        | some r4 =>
          rw [h7] at heq
          simp only [] at heq
          cases h8 : parse2 r4 with
          | none => rw [h8] at heq; simp at heq
          | some p3 =>
            obtain ⟨d, r5⟩ := p3
            rw [h8] at heq
            simp only [] at heq
            by_cases hdate : 1 ≤ mo ∧ mo ≤ 12 ∧ 1 ≤ d ∧ d ≤ 31
            · rw [if_pos hdate] at heq
              have hy := parse4_bound h4
              cases r5 with
              | nil =>
                simp at heq
                subst heq
                simp [DT.validB]
                omega
              | cons sep r6 =>
                simp only [] at heq
                by_cases hsep : sep = ' ' ∨ sep = 'T'
                · rw [if_pos hsep] at heq
                  cases h9 : parse2 r6 with
                  | none => rw [h9] at heq; simp at heq
                  | some p4 =>
                    obtain ⟨hh, r7⟩ := p4
                    rw [h9] at heq
                    simp only [] at heq
                    cases h10 : expectCh ':' r7 with
                    | none => rw [h10] at heq; simp at heq
                    | some r8 =>
                      rw [h10] at heq
                      simp only [] at heq
                      cases h11 : parse2 r8 with
                      | none => rw [h11] at heq; simp at heq
                      | some p5 =>
                        obtain ⟨mi, r9⟩ := p5
                        rw [h11] at heq
                        simp only [] at heq
                        cases h12 : expectCh ':' r9 with
                        | none => rw [h12] at heq; simp at heq
                        | some r10 =>
                          rw [h12] at heq
                          simp only [] at heq
                          cases h13 : parse2 r10 with
                          | none => rw [h13] at heq; simp at heq
                          | some p6 =>
                            obtain ⟨ss, r11⟩ := p6
                            rw [h13] at heq
                            simp only [] at heq
                            by_cases htime : hh < 24 ∧ mi < 60 ∧ ss < 60
                            · rw [if_pos htime] at heq
                              cases h14 : parseFracTZ r11 with
                              | none => rw [h14] at heq; simp at heq
                              | some p7 =>
                                obtain ⟨f, tz⟩ := p7
                                rw [h14] at heq
                                simp at heq
                                subst heq
                                have hf := parseFracTZ_bound_frac h14
                                cases tz with
                                | none =>
                                  simp [DT.validB]
                                  omega
                                | some q =>
                                  obtain ⟨a, b⟩ := q
                                  have hab := parseFracTZ_bound_tz h14
                                  simp [DT.validB]
                                  omega
                            · rw [if_neg htime] at heq; simp at heq
                · rw [if_neg hsep] at heq; simp at heq
            · rw [if_neg hdate] at heq; simp at heq

theorem parseTZ_tzPart {tz : Option (Nat × Nat)} (htz : TZBounds tz) :
    parseTZ (tzPart tz) = some tz := by
  cases tz with
  | none => rfl
  | some p =>
    obtain ⟨a, b⟩ := p
    obtain ⟨ha, hb⟩ := htz
    simp only [tzPart, parseTZ, if_pos]
    rw [parse2_pad2 ha]
    simp only []
    rw [expectCh_cons]
    simp only []
    rw [parse2_pad2_nil hb]
    simp

theorem parseFracTZ_roundtrip {f : Nat} {tz : Option (Nat × Nat)} (hf : f < 1000000)
    (htz : TZBounds tz) :
    parseFracTZ (fracPart f ++ tzPart tz) = some (f, tz) := by
  by_cases hf0 : f = 0
  · subst hf0
    have hfr : fracPart 0 = [] := rfl
    rw [hfr, List.nil_append]
    have hhead : ¬((tzPart tz).head? = some '.') := by
      cases tz with
      | none => simp [tzPart]
      | some p => simp [tzPart]
    unfold parseFracTZ
    rw [if_neg hhead, parseTZ_tzPart htz]
  · simp only [fracPart, if_neg hf0, List.cons_append]
    unfold parseFracTZ
    rw [if_pos (by simp)]
    simp only [List.tail_cons]
    rw [parse6_pad6 hf]
    simp only []
    rw [parseTZ_tzPart htz]

theorem parseDT_formatIso {dt : DT} (hv : dt.validB = true) :
    parseDT (formatIso dt) = some dt := by
  obtain ⟨y, mo, d, hh, mi, ss, f, tz⟩ := dt
  simp only [DT.validB, Bool.and_eq_true, decide_eq_true_eq] at hv
  obtain ⟨⟨⟨⟨⟨⟨⟨⟨⟨hy, hmo1⟩, hmo2⟩, hd1⟩, hd2⟩, hhh⟩, hmi⟩, hss⟩, hf⟩, htzm⟩ := hv
  have htz : TZBounds tz := by
    cases tz with
    | none => trivial
    | some p =>
      simp only [] at htzm
      simpa using htzm
  unfold formatIso parseDT
  rw [parse4_pad4 hy]
  try simp only []
  rw [expectCh_cons]
  try simp only []
  rw [parse2_pad2 (show mo < 100 by omega)]
  try simp only []
  rw [expectCh_cons]
  try simp only []
  rw [parse2_pad2 (show d < 100 by omega)]
  try simp only []
  rw [if_pos ⟨hmo1, hmo2, hd1, hd2⟩]
  try simp only []
  rw [if_pos (by simp)]
  rw [parse2_pad2 (show hh < 100 by omega)]
  try simp only []
  rw [expectCh_cons]
  try simp only []
  rw [parse2_pad2 (show mi < 100 by omega)]
  try simp only []
  rw [expectCh_cons]
  try simp only []
  rw [parse2_pad2 (show ss < 100 by omega)]
  try simp only []
  rw [if_pos ⟨hhh, hmi, hss⟩]
  rw [parseFracTZ_roundtrip hf htz]

theorem splitPlus_cons_ne {c : Char} (h : c ≠ '+') (r : List Char) :
    splitPlus (c :: r) = c :: splitPlus r := by
  simp [splitPlus, List.takeWhile_cons, h]

theorem splitPlus_cons_plus (r : List Char) : splitPlus ('+' :: r) = [] := by
  simp [splitPlus, List.takeWhile_cons]

theorem splitPlus_append_of_noPlus {l r : List Char} (h : ∀ c ∈ l, c ≠ '+') :
    splitPlus (l ++ r) = l ++ splitPlus r := by
  induction l with
  | nil => simp
  | cons c t ih =>
    rw [List.cons_append, splitPlus_cons_ne (h c (by simp)), ih (fun x hx => h x (by simp [hx]))]
    rfl

theorem noPlus_pad2 {n : Nat} (h : n < 100) : ∀ c ∈ pad2 n, c ≠ '+' := by
  intro c hc
  simp [pad2] at hc
  rcases hc with rfl | rfl
  · exact digitChar_ne_plus (by omega)
  · exact digitChar_ne_plus (by omega)

theorem noPlus_pad4 {n : Nat} (h : n < 10000) : ∀ c ∈ pad4 n, c ≠ '+' := by
  intro c hc
  simp [pad4] at hc
  rcases hc with rfl | rfl | rfl | rfl
  · exact digitChar_ne_plus (by omega)
  · exact digitChar_ne_plus (by omega)
  · exact digitChar_ne_plus (by omega)
  · exact digitChar_ne_plus (by omega)

theorem noPlus_pad6 {n : Nat} (h : n < 1000000) : ∀ c ∈ pad6 n, c ≠ '+' := by
  intro c hc
  simp [pad6] at hc
  rcases hc with rfl | rfl | rfl | rfl | rfl | rfl
  · exact digitChar_ne_plus (by omega)
  · exact digitChar_ne_plus (by omega)
  · exact digitChar_ne_plus (by omega)
  · exact digitChar_ne_plus (by omega)
  · exact digitChar_ne_plus (by omega)
  · exact digitChar_ne_plus (by omega)

theorem noPlus_fracPart {f : Nat} (h : f < 1000000) : ∀ c ∈ fracPart f, c ≠ '+' := by
  intro c hc
  by_cases hf0 : f = 0
  · subst hf0; simp [fracPart] at hc
  · simp [fracPart, hf0] at hc
    rcases hc with rfl | hc
    · decide
    · exact noPlus_pad6 h c hc

theorem splitPlus_tzPart (tz : Option (Nat × Nat)) : splitPlus (tzPart tz) = [] := by
  cases tz with
  | none => rfl
  | some p => simp [tzPart, splitPlus_cons_plus]

theorem splitPlus_formatIso {dt : DT} (hv : dt.validB = true) :
    splitPlus (formatIso dt) = formatIso dt.dropTz := by
  obtain ⟨y, mo, d, hh, mi, ss, f, tz⟩ := dt
  simp only [DT.validB, Bool.and_eq_true, decide_eq_true_eq] at hv
  obtain ⟨⟨⟨⟨⟨⟨⟨⟨⟨hy, hmo1⟩, hmo2⟩, hd1⟩, hd2⟩, hhh⟩, hmi⟩, hss⟩, hf⟩, htzm⟩ := hv
  simp only [formatIso, DT.dropTz]
  rw [splitPlus_append_of_noPlus (noPlus_pad4 hy)]
  rw [splitPlus_cons_ne (by decide)]
  rw [splitPlus_append_of_noPlus (noPlus_pad2 (show mo < 100 by omega))]
  rw [splitPlus_cons_ne (by decide)]
  rw [splitPlus_append_of_noPlus (noPlus_pad2 (show d < 100 by omega))]
  rw [splitPlus_cons_ne (by decide)]
  rw [splitPlus_append_of_noPlus (noPlus_pad2 (show hh < 100 by omega))]
  rw [splitPlus_cons_ne (by decide)]
  rw [splitPlus_append_of_noPlus (noPlus_pad2 (show mi < 100 by omega))]
  rw [splitPlus_cons_ne (by decide)]
  rw [splitPlus_append_of_noPlus (noPlus_pad2 (show ss < 100 by omega))]
  rw [splitPlus_append_of_noPlus (noPlus_fracPart hf)]
  rw [splitPlus_tzPart]
  simp [tzPart]

theorem dropTz_validB {dt : DT} (h : dt.validB = true) : dt.dropTz.validB = true := by
  obtain ⟨y, mo, d, hh, mi, ss, f, tz⟩ := dt
  simp only [DT.validB, Bool.and_eq_true, decide_eq_true_eq] at *
  obtain ⟨⟨⟨⟨⟨⟨⟨⟨⟨hy, hmo1⟩, hmo2⟩, hd1⟩, hd2⟩, hhh⟩, hmi⟩, hss⟩, hf⟩, htzm⟩ := h
  simp [DT.dropTz]
  omega

theorem dropTz_dropTz (dt : DT) : dt.dropTz.dropTz = dt.dropTz := rfl

theorem fastPathB_formatIso (dt : DT) : fastPathB (formatIso dt) = false := by
  have h10 : (formatIso dt)[10]? = some 'T' := by
    simp [formatIso, pad4, pad2]
  simp [fastPathB, h10]

theorem normalize_str_of_parse_none {s : String} (hfp : fastPathB s.data = false)
    (hp : parseDT s.data = none) :
    normalize_date_or_timestamp (Val.str s) = Val.str s := by
  simp [normalize_date_or_timestamp, hfp, hp]

theorem normalize_str_of_parse_some {s : String} (hfp : fastPathB s.data = false)
    {dt : DT} (hp : parseDT s.data = some dt) :
    normalize_date_or_timestamp (Val.str s) = Val.str (String.mk (formatIso dt.dropTz)) := by
  simp [normalize_date_or_timestamp, hfp, hp, splitPlus_formatIso (parseDT_validB hp)]

theorem normalize_idem_of_not_fastPath {v : Val} (h : isFastPath v = false) :
    normalize_date_or_timestamp (normalize_date_or_timestamp v) =
      normalize_date_or_timestamp v := by
  cases v with
  | na => rfl
  | int n => rfl
  | str s =>
    have hfp : fastPathB s.data = false := by simpa [isFastPath] using h
    cases hp : parseDT s.data with
    | none =>
      rw [normalize_str_of_parse_none hfp hp, normalize_str_of_parse_none hfp hp]
    | some dt =>
      rw [normalize_str_of_parse_some hfp hp]
      have hv' : dt.dropTz.validB = true := dropTz_validB (parseDT_validB hp)
      have hdata : (String.mk (formatIso dt.dropTz)).data = formatIso dt.dropTz := rfl
      rw [normalize_str_of_parse_some (by rw [hdata]; exact fastPathB_formatIso dt.dropTz)
        (by rw [hdata]; exact parseDT_formatIso hv'), dropTz_dropTz]

/-! ### Value-equivalence lemmas -/

theorem normalize_str_shape (s : String) :
    ∃ t, normalize_date_or_timestamp (Val.str s) = Val.str t := by
  simp only [normalize_date_or_timestamp]
  by_cases hfp : fastPathB s.data
  · rw [if_pos hfp]
    exact ⟨_, rfl⟩
  · rw [if_neg hfp]
    cases hp : parseDT s.data with
    | none => exact ⟨s, rfl⟩
    | some dt => exact ⟨_, rfl⟩

theorem pyEq_self_of_not_na {v : Val} (h : v.isna = false) : pyEq v v = true := by
  cases v with
  | na => simp [Val.isna] at h
  | str s => simp [pyEq]
  | int n => simp [pyEq]

theorem compare_values_refl (v : Val) : compare_values v v = true := by
  cases v with
  | na => rfl
  | int n => simp [compare_values, normalize_date_or_timestamp, pyNe, pyEq, Val.isna]
  | str s =>
    obtain ⟨t, ht⟩ := normalize_str_shape s
    simp only [compare_values, Val.isna, Bool.and_self, ht]
    by_cases hts : t = s
    · subst hts
      simp [pyNe, pyEq]
    · simp [pyNe, pyEq, hts]

/-! ### Sorting and membership -/

theorem mem_insertLe {α : Type} {le : α → α → Bool} {x a : α} {l : List α} :
    a ∈ insertLe le x l ↔ a = x ∨ a ∈ l := by
  induction l with
  | nil => simp [insertLe]
  | cons y ys ih =>
    simp only [insertLe]
    split
    · simp
    · simp only [List.mem_cons, ih]
      tauto

theorem mem_sortLe {α : Type} {le : α → α → Bool} {a : α} {l : List α} :
    a ∈ sortLe le l ↔ a ∈ l := by
  induction l with
  | nil => simp [sortLe]
  | cons x xs ih =>
    simp only [sortLe, mem_insertLe, ih, List.mem_cons]

/-! ### Association-list lemmas -/

theorem lookup_rowMapCol (c c' : String) (f : Val → Val) (r : Row) :
    (rowMapCol c f r).lookup c' =
      (r.lookup c').map (fun v => if c' = c then f v else v) := by
  induction r with
  | nil => rfl
  | cons kv t ih =>
    obtain ⟨k, v⟩ := kv
    simp only [rowMapCol] at ih ⊢
    simp only [List.map_cons, List.lookup]
    by_cases hck : c' = k
    · subst hck
      simp
    · have hb : (c' == k) = false := by simp [hck]
      rw [hb]
      simp [ih]

theorem getD_rowMapCol_ne {c c' : String} (h : c' ≠ c) (f : Val → Val) (r : Row) :
    (rowMapCol c f r).getD c' = r.getD c' := by
  simp only [Row.getD, lookup_rowMapCol, h, if_neg]
  cases r.lookup c' <;> simp [h]

theorem getD_rowNormalizeTactics_ne {c : String} (h1 : c ≠ "tactic_id")
    (h2 : c ≠ "tactic_nm") (r : Row) :
    (rowNormalizeTactics r).getD c = r.getD c := by
  rw [rowNormalizeTactics, getD_rowMapCol_ne h2, getD_rowMapCol_ne h1]

theorem getD_rowMapCol_eq_of_getD {c : String} {f : Val → Val} {r : Row} {v : Val}
    (hv : r.getD c = v) (hna : v ≠ Val.na) :
    (rowMapCol c f r).getD c = f v := by
  rw [Row.getD] at hv
  cases hl : r.lookup c with
  | none => rw [hl] at hv; exact absurd hv.symm hna
  | some w =>
    rw [hl] at hv
    subst hv
    simp [Row.getD, lookup_rowMapCol, hl]

/-! ### Self-comparison (reflexivity) lemmas -/

theorem rowPairChanges_self (did tid rf : Val) (showIdx : Bool) (i : Nat)
    (cols : List String) (r : Row) :
    rowPairChanges did tid rf showIdx i cols r r = [] := by
  rw [rowPairChanges, List.filterMap_eq_nil_iff]
  intro c hc
  by_cases hd : c = "description"
  · simp [hd]
  · simp only [if_neg hd]
    by_cases hna : ((r.getD c).isna && (r.getD c).isna) = true
    · simp [hna, compare_values_refl]
    · simp [hna, compare_values_refl]

theorem pairedChanges_self (did tid rf : Val) (showIdx : Bool) (cols : List String) :
    ∀ (i : Nat) (rows : List Row), pairedChanges did tid rf showIdx cols i rows rows = [] := by
  intro i rows
  induction rows generalizing i with
  | nil => rfl
  | cons r rs ih => simp [pairedChanges, rowPairChanges_self, ih]

theorem combo_self (rows : List Row) (tid rf : Val) (cols : List String) (did : Val) :
    compare_tactic_recency_combination rows rows tid rf cols did =
      { has_changes := false, cell_changes := [] } := by
  simp [compare_tactic_recency_combination, pairedChanges_self]

theorem filter_not_mem_self {α : Type} [DecidableEq α] (C : List α) :
    C.filter (fun k => !decide (k ∈ C)) = [] := by
  rw [List.filter_eq_nil_iff]
  intro k hk
  simp [hk]

theorem filter_changes_map_self {β : Type} (C : List β) (F : β → List Row)
    (tid rf : β → Val) (cols : List String) (did : Val) :
    ((C.map (fun k => (k, compare_tactic_recency_combination (F k) (F k) (tid k) (rf k)
        cols did))).filter (fun p => p.2.has_changes)) = [] := by
  rw [List.filter_eq_nil_iff]
  intro p hp
  rw [List.mem_map] at hp
  obtain ⟨k, hk, rfl⟩ := hp
  simp [combo_self]

theorem group_self (g : List Row) (did : Val) (cols : List String) :
    (compare_groups_by_tactic_recency g g did cols).has_changes = false := by
  simp only [compare_groups_by_tactic_recency]
  simp [filter_not_mem_self, filter_changes_map_self]

theorem comparePhase_self_modified (msgs : List String) (F : DataFrame) :
    (comparePhase msgs F F).modified_groups = [] := by
  simp only [comparePhase]
  rw [List.filter_eq_nil_iff]
  intro p hp
  rw [List.mem_map] at hp
  obtain ⟨id, hid, rfl⟩ := hp
  simp [group_self]

theorem comparePhase_self_identical (msgs : List String) (F : DataFrame) {id : Val}
    (hid : id ∈ (colVals F "dataset_id").dedup) :
    id ∈ (comparePhase msgs F F).identical_groups := by
  simp only [comparePhase]
  apply List.mem_map.mpr
  refine ⟨_, List.mem_filter.mpr ⟨List.mem_map.mpr ⟨id, ?_, rfl⟩, ?_⟩, rfl⟩
  · exact List.mem_filter.mpr ⟨hid, by simp [hid]⟩
  · simp [group_self]

/-! ### Orchestrator step lemmas -/

theorem mapCol_cols (df : DataFrame) (c : String) (f : Val → Val) :
    (df.mapCol c f).cols = df.cols := rfl

theorem mapCol_hasCol (df : DataFrame) (c c' : String) (f : Val → Val) :
    (df.mapCol c f).hasCol c' = df.hasCol c' := rfl

theorem replaceNullTokens_ok {df : DataFrame} (h1 : df.hasCol "tactic_id" = true)
    (h2 : df.hasCol "tactic_nm" = true) :
    replaceNullTokens df =
      (.ok (), (df.mapCol "tactic_id" replaceTok).mapCol "tactic_nm" replaceTok) := by
  unfold replaceNullTokens
  rw [if_pos h1, if_pos (show (df.mapCol "tactic_id" replaceTok).hasCol "tactic_nm" = true from h2)]

theorem filterHistory_ok {df : DataFrame} (h : df.hasCol "recency_flag" = true) :
    filterHistory df = .ok { df with
      rows := df.rows.filter (fun r => pyEq (r.getD "recency_flag") (Val.str "history")) } := by
  unfold filterHistory
  rw [if_pos h]

theorem sortDf_mk_ok {cols : List String} {rows : List Row}
    (h1 : "dataset_id" ∈ cols) (h2 : "tactic_id" ∈ cols) (h3 : "recency_flag" ∈ cols) :
    sortDf { cols := cols, rows := rows } =
      .ok { cols := cols, rows := sortLe rowLe3 rows } := by
  unfold sortDf
  rw [if_pos (by simp [DataFrame.hasCol, h1, h2, h3])]

/-- C6: comparing any dataset against itself yields no modified groups, and
every `dataset_id` occurring in a history row of the dataset appears in
`identical_groups` (the columns the pipeline unconditionally accesses must
be present for the comparison to complete). -/
theorem c6_self_comparison (A : DataFrame)
    (h1 : A.hasCol "tactic_id" = true) (h2 : A.hasCol "tactic_nm" = true)
    (h3 : A.hasCol "dataset_id" = true) (h4 : A.hasCol "recency_flag" = true) :
    ∃ res, (compare_dataframes_by_groups A A).1 = Res.ok res ∧
      res.modified_groups = [] ∧
      ∀ r ∈ A.rows, r.getD "recency_flag" = Val.str "history" →
        r.getD "dataset_id" ∈ res.identical_groups := by
  unfold compare_dataframes_by_groups
  rw [replaceNullTokens_ok h1 h2]
  simp only []
  unfold runComparison
  rw [filterHistory_ok (show ((A.mapCol "tactic_id" replaceTok).mapCol "tactic_nm"
    replaceTok).hasCol "recency_flag" = true from h4)]
  simp only []
  rw [sortDf_mk_ok
    (show "dataset_id" ∈ ((A.mapCol "tactic_id" replaceTok).mapCol "tactic_nm"
      replaceTok).cols from of_decide_eq_true h3)
    (show "tactic_id" ∈ ((A.mapCol "tactic_id" replaceTok).mapCol "tactic_nm"
      replaceTok).cols from of_decide_eq_true h1)
    (show "recency_flag" ∈ ((A.mapCol "tactic_id" replaceTok).mapCol "tactic_nm"
      replaceTok).cols from of_decide_eq_true h4)]
  simp only []
  refine ⟨_, rfl, comparePhase_self_modified _ _, ?_⟩
  intro r hr hrec
  apply comparePhase_self_identical
  apply List.mem_dedup.mpr
  apply List.mem_map.mpr
  refine ⟨rowNormalizeTactics r, ?_, ?_⟩
  · apply mem_sortLe.mpr
    apply List.mem_filter.mpr
    constructor
    · show rowNormalizeTactics r ∈
        ((A.mapCol "tactic_id" replaceTok).mapCol "tactic_nm" replaceTok).rows
      simp only [DataFrame.mapCol, List.map_map]
      exact List.mem_map.mpr ⟨r, hr, rfl⟩
    · rw [getD_rowNormalizeTactics_ne (by decide) (by decide), hrec]
      simp [pyEq]
  · rw [getD_rowNormalizeTactics_ne (by decide) (by decide)]

/-! ### Forced cell changes for extra rows -/

theorem mem_removedRowChanges (did tid rf : Val) (cols : List String) (i : Nat) (row1 : Row)
    (c : String) (hc : c ∈ cols) (hcd : c ≠ "description") :
    ∃ ch ∈ removedRowChanges did tid rf cols i row1,
      ch.Column = c ∧ ch.Row_Index = some i ∧ ch.File_B_Value = Val.str "ROW_REMOVED" ∧
        ch.Change_Type = "Row Removed" := by
  simp only [removedRowChanges]
  refine ⟨{ dataset_id := did, tactic_id := tid, recency_flag := rf, Row_Index := some i,
            Column := c,
            File_A_Value := if (row1.getD c).isna then Val.str "NULL" else row1.getD c,
            File_B_Value := Val.str "ROW_REMOVED", Change_Type := "Row Removed" },
    List.mem_filterMap.mpr ⟨c, hc, ?_⟩, rfl, rfl, rfl, rfl⟩
  rw [if_neg hcd]

theorem mem_addedRowChanges (did tid rf : Val) (cols : List String) (i : Nat) (row2 : Row)
    (c : String) (hc : c ∈ cols) (hcd : c ≠ "description") :
    ∃ ch ∈ addedRowChanges did tid rf cols i row2,
      ch.Column = c ∧ ch.Row_Index = some i ∧ ch.File_A_Value = Val.str "ROW_ADDED" ∧
        ch.Change_Type = "Row Added" := by
  simp only [addedRowChanges]
  refine ⟨{ dataset_id := did, tactic_id := tid, recency_flag := rf, Row_Index := some i,
            Column := c,
            File_A_Value := Val.str "ROW_ADDED",
            File_B_Value := if (row2.getD c).isna then Val.str "NULL" else row2.getD c,
            Change_Type := "Row Added" },
    List.mem_filterMap.mpr ⟨c, hc, ?_⟩, rfl, rfl, rfl, rfl⟩
  rw [if_neg hcd]

theorem mem_removedChanges {did tid rf : Val} {cols : List String} {c : String}
    (hc : c ∈ cols) (hcd : c ≠ "description") :
    ∀ (rows : List Row) (j i : Nat), j < rows.length →
      ∃ ch ∈ removedChanges did tid rf cols i rows,
        ch.Column = c ∧ ch.Row_Index = some (i + j) ∧
          ch.File_B_Value = Val.str "ROW_REMOVED" ∧ ch.Change_Type = "Row Removed" := by
  intro rows
  induction rows with
  | nil => intro j i hj; simp at hj
  | cons r rs ih =>
    intro j i hj
    cases j with
    | zero =>
      obtain ⟨ch, hm, h1, h2, h3, h4⟩ := mem_removedRowChanges did tid rf cols i r c hc hcd
      refine ⟨ch, ?_, h1, by simpa using h2, h3, h4⟩
      simp only [removedChanges]
      exact List.mem_append.mpr (Or.inl hm)
    | succ j' =>
      obtain ⟨ch, hm, h1, h2, h3, h4⟩ := ih j' (i + 1) (by simpa using hj)
      refine ⟨ch, ?_, h1, ?_, h3, h4⟩
      · simp only [removedChanges]
        exact List.mem_append.mpr (Or.inr hm)
      · rw [h2]
        congr 1
        omega

theorem mem_addedChanges {did tid rf : Val} {cols : List String} {c : String}
    (hc : c ∈ cols) (hcd : c ≠ "description") :
    ∀ (rows : List Row) (j i : Nat), j < rows.length →
      ∃ ch ∈ addedChanges did tid rf cols i rows,
        ch.Column = c ∧ ch.Row_Index = some (i + j) ∧
          ch.File_A_Value = Val.str "ROW_ADDED" ∧ ch.Change_Type = "Row Added" := by
  intro rows
  induction rows with
  | nil => intro j i hj; simp at hj
  | cons r rs ih =>
    intro j i hj
    cases j with
    | zero =>
      obtain ⟨ch, hm, h1, h2, h3, h4⟩ := mem_addedRowChanges did tid rf cols i r c hc hcd
      refine ⟨ch, ?_, h1, by simpa using h2, h3, h4⟩
      simp only [addedChanges]
      exact List.mem_append.mpr (Or.inl hm)
    | succ j' =>
      obtain ⟨ch, hm, h1, h2, h3, h4⟩ := ih j' (i + 1) (by simpa using hj)
      refine ⟨ch, ?_, h1, ?_, h3, h4⟩
      · simp only [addedChanges]
        exact List.mem_append.mpr (Or.inr hm)
      · rw [h2]
        congr 1
        omega

/-- C7: within a matched combination with unequal row counts, every
non-description common column of every extra row yields a forced Cell
Change: extra rows of File A give `File_B_Value = "ROW_REMOVED"` with
`Change_Type = "Row Removed"`, extra rows of File B give
`File_A_Value = "ROW_ADDED"` with `Change_Type = "Row Added"`. -/
theorem c7_forced_row_changes (rows1 rows2 : List Row) (tid rf : Val)
    (cols : List String) (did : Val) :
    (∀ i c, rows2.length ≤ i → i < rows1.length → c ∈ cols → c ≠ "description" →
      ∃ ch ∈ (compare_tactic_recency_combination rows1 rows2 tid rf cols did).cell_changes,
        ch.Column = c ∧ ch.Row_Index = some i ∧
          ch.File_B_Value = Val.str "ROW_REMOVED" ∧ ch.Change_Type = "Row Removed") ∧
    (∀ i c, rows1.length ≤ i → i < rows2.length → c ∈ cols → c ≠ "description" →
      ∃ ch ∈ (compare_tactic_recency_combination rows1 rows2 tid rf cols did).cell_changes,
        ch.Column = c ∧ ch.Row_Index = some i ∧
          ch.File_A_Value = Val.str "ROW_ADDED" ∧ ch.Change_Type = "Row Added") := by
  constructor
  · intro i c hge hlt hc hcd
    have hn : ¬(rows1.length = rows2.length) := by omega
    have hgt : rows1.length > rows2.length := by omega
    have hmin : min rows1.length rows2.length = rows2.length := by omega
    simp only [compare_tactic_recency_combination, hmin, if_neg hn, if_pos hgt]
    have hj : i - rows2.length < (rows1.drop rows2.length).length := by
      rw [List.length_drop]
      omega
    obtain ⟨ch, hm, h1, h2, h3, h4⟩ :=
      mem_removedChanges hc hcd (rows1.drop rows2.length) (i - rows2.length)
        rows2.length hj
    refine ⟨ch, List.mem_append.mpr (Or.inr hm), h1, ?_, h3, h4⟩
    rw [h2]
    congr 1
    omega
  · intro i c hge hlt hc hcd
    have hn : ¬(rows1.length = rows2.length) := by omega
    have hgt : ¬(rows1.length > rows2.length) := by omega
    have hmin : min rows1.length rows2.length = rows1.length := by omega
    simp only [compare_tactic_recency_combination, hmin, if_neg hn, if_neg hgt]
    have hj : i - rows1.length < (rows2.drop rows1.length).length := by
      rw [List.length_drop]
      omega
    obtain ⟨ch, hm, h1, h2, h3, h4⟩ :=
      mem_addedChanges hc hcd (rows2.drop rows1.length) (i - rows1.length)
        rows1.length hj
    refine ⟨ch, List.mem_append.mpr (Or.inr hm), h1, ?_, h3, h4⟩
    rw [h2]
    congr 1
    omega

/-! ### Description-column invisibility -/

theorem column_ne_desc_rowPairChanges {did tid rf : Val} {showIdx : Bool} {i : Nat}
    {cols : List String} {row1 row2 : Row} {ch : CellChange}
    (h : ch ∈ rowPairChanges did tid rf showIdx i cols row1 row2) :
    ch.Column ≠ "description" := by
  obtain ⟨c, hc, hf⟩ := List.mem_filterMap.mp h
  by_cases hcd : c = "description"
  · rw [if_pos hcd] at hf
    simp at hf
  · rw [if_neg hcd] at hf
    simp only [] at hf
    by_cases h1 : ((row1.getD c).isna && (row2.getD c).isna) = true
    · rw [if_pos h1] at hf
      simp at hf
    · rw [if_neg h1] at hf
      by_cases h2 : compare_values (row1.getD c) (row2.getD c) = true
      · rw [if_pos h2] at hf
        simp at hf
      · rw [if_neg h2] at hf
        injection hf with h'
        subst h'
        exact hcd

theorem column_ne_desc_removedRowChanges {did tid rf : Val} {cols : List String} {i : Nat}
    {row1 : Row} {ch : CellChange}
    (h : ch ∈ removedRowChanges did tid rf cols i row1) : ch.Column ≠ "description" := by
  obtain ⟨c, hc, hf⟩ := List.mem_filterMap.mp h
  by_cases hcd : c = "description"
  · rw [if_pos hcd] at hf
    simp at hf
  · rw [if_neg hcd] at hf
    injection hf with h'
    subst h'
    exact hcd

theorem column_ne_desc_addedRowChanges {did tid rf : Val} {cols : List String} {i : Nat}
    {row2 : Row} {ch : CellChange}
    (h : ch ∈ addedRowChanges did tid rf cols i row2) : ch.Column ≠ "description" := by
  obtain ⟨c, hc, hf⟩ := List.mem_filterMap.mp h
  by_cases hcd : c = "description"
  · rw [if_pos hcd] at hf
    simp at hf
  · rw [if_neg hcd] at hf
    injection hf with h'
    subst h'
    exact hcd

theorem column_ne_desc_pairedChanges {did tid rf : Val} {showIdx : Bool}
    {cols : List String} {ch : CellChange} :
    ∀ {rs1 rs2 : List Row} {i : Nat},
      ch ∈ pairedChanges did tid rf showIdx cols i rs1 rs2 → ch.Column ≠ "description" := by
  intro rs1
  induction rs1 with
  | nil => intro rs2 i h; simp [pairedChanges] at h
  | cons r1 t1 ih =>
    intro rs2 i h
    cases rs2 with
    | nil => simp [pairedChanges] at h
    | cons r2 t2 =>
      simp only [pairedChanges] at h
      rcases List.mem_append.mp h with h' | h'
      · exact column_ne_desc_rowPairChanges h'
      · exact ih h'

theorem column_ne_desc_removedChanges {did tid rf : Val} {cols : List String}
    {ch : CellChange} :
    ∀ {rows : List Row} {i : Nat},
      ch ∈ removedChanges did tid rf cols i rows → ch.Column ≠ "description" := by
  intro rows
  induction rows with
  | nil => intro i h; simp [removedChanges] at h
  | cons r t ih =>
    intro i h
    simp only [removedChanges] at h
    rcases List.mem_append.mp h with h' | h'
    · exact column_ne_desc_removedRowChanges h'
    · exact ih h'

theorem column_ne_desc_addedChanges {did tid rf : Val} {cols : List String}
    {ch : CellChange} :
    ∀ {rows : List Row} {i : Nat},
      ch ∈ addedChanges did tid rf cols i rows → ch.Column ≠ "description" := by
  intro rows
  induction rows with
  | nil => intro i h; simp [addedChanges] at h
  | cons r t ih =>
    intro i h
    simp only [addedChanges] at h
    rcases List.mem_append.mp h with h' | h'
    · exact column_ne_desc_addedRowChanges h'
    · exact ih h'

theorem column_ne_desc_combo {rows1 rows2 : List Row} {tid rf : Val}
    {cols : List String} {did : Val} {ch : CellChange}
    (h : ch ∈ (compare_tactic_recency_combination rows1 rows2 tid rf cols did).cell_changes) :
    ch.Column ≠ "description" := by
  simp only [compare_tactic_recency_combination] at h
  rcases List.mem_append.mp h with h' | h'
  · exact column_ne_desc_pairedChanges h'
  · split at h'
    · simp at h'
    · split at h'
      · exact column_ne_desc_removedChanges h'
      · exact column_ne_desc_addedChanges h'

theorem group_changed_shape {g1 g2 : List Row} {did : Val} {cols : List String} {p}
    (hp : p ∈ ((compare_groups_by_tactic_recency g1 g2 did cols).tactic_recency_changes)) :
    ∃ k rows1 rows2,
      p = (k, [("cell_changes",
        (compare_tactic_recency_combination rows1 rows2 (dispTactic k.1) k.2
          (cols.filter (fun c => c ≠ "description")) did).cell_changes)]) := by
  simp only [compare_groups_by_tactic_recency] at hp
  rw [List.mem_map] at hp
  obtain ⟨q, hq, rfl⟩ := hp
  rw [List.mem_filter] at hq
  obtain ⟨hq, _⟩ := hq
  rw [List.mem_map] at hq
  obtain ⟨k, hk, rfl⟩ := hq
  exact ⟨k, _, _, rfl⟩

theorem group_cell_changes_desc {g1 g2 : List Row} {did : Val} {cols : List String}
    {ch : CellChange}
    (h : ch ∈ (compare_groups_by_tactic_recency g1 g2 did cols).cell_changes) :
    ch.Column ≠ "description" := by
  simp only [compare_groups_by_tactic_recency] at h
  rw [List.mem_flatMap] at h
  obtain ⟨q, hq, hch⟩ := h
  rw [List.mem_filter] at hq
  obtain ⟨hq, _⟩ := hq
  rw [List.mem_map] at hq
  obtain ⟨k, hk, rfl⟩ := hq
  exact column_ne_desc_combo hch

theorem group_trc_fields {g1 g2 : List Row} {did : Val} {cols : List String} {q}
    (hq : q ∈ (compare_groups_by_tactic_recency g1 g2 did cols).tactic_recency_changes) :
    q.2.map Prod.fst = ["cell_changes"] := by
  obtain ⟨k, rows1, rows2, rfl⟩ := group_changed_shape hq
  rfl

theorem group_trc_desc {g1 g2 : List Row} {did : Val} {cols : List String} {q}
    (hq : q ∈ (compare_groups_by_tactic_recency g1 g2 did cols).tactic_recency_changes) :
    ∀ e ∈ q.2, ∀ ch ∈ e.2, ch.Column ≠ "description" := by
  obtain ⟨k, rows1, rows2, rfl⟩ := group_changed_shape hq
  intro e he ch hch
  simp at he
  subst he
  exact column_ne_desc_combo hch

/-! ### Result inversion and top-level invariants -/

theorem ok_res_eq_comparePhase {df1 df2 : DataFrame} {res : CompareResult}
    (h : (compare_dataframes_by_groups df1 df2).1 = Res.ok res) :
    ∃ msgs f1 f2, res = comparePhase msgs f1 f2 := by
  unfold compare_dataframes_by_groups at h
  split at h
  · simp at h
  · split at h
    · simp at h
    · simp only [] at h
      unfold runComparison at h
      split at h
      · simp at h
      · split at h
        · simp at h
        · split at h
          · simp at h
          · split at h
            · simp at h
            · injection h with h'
              exact ⟨_, _, _, h'.symm⟩

theorem comparePhase_modified_shape {msgs : List String} {f1 f2 : DataFrame} {p}
    (hp : p ∈ (comparePhase msgs f1 f2).modified_groups) :
    ∃ g1 g2, p.2 = compare_groups_by_tactic_recency g1 g2 p.1
      (columnDifferences f1 f2).common := by
  simp only [comparePhase] at hp
  rw [List.mem_filter] at hp
  obtain ⟨hp, _⟩ := hp
  rw [List.mem_map] at hp
  obtain ⟨id, _, rfl⟩ := hp
  exact ⟨_, _, rfl⟩

theorem comparePhase_desc_cols (msgs : List String) (f1 f2 : DataFrame) :
    "description" ∉ (comparePhase msgs f1 f2).column_differences.only_in_df1 ∧
    "description" ∉ (comparePhase msgs f1 f2).column_differences.only_in_df2 ∧
    "description" ∉ (comparePhase msgs f1 f2).column_differences.common := by
  have h1 : "description" ∉ f1.cols.dedup.erase "description" :=
    (List.nodup_dedup f1.cols).not_mem_erase
  have h2 : "description" ∉ f2.cols.dedup.erase "description" :=
    (List.nodup_dedup f2.cols).not_mem_erase
  refine ⟨?_, ?_, ?_⟩ <;> intro hmem <;>
    simp only [comparePhase, columnDifferences, List.mem_filter] at hmem
  · exact h1 hmem.1
  · exact h2 hmem.1
  · exact h1 hmem.1

/-- C9: the `description` column is invisible to the comparison — it never
appears in any field of `column_differences`, and no cell-change record of
any modified group (nor of any stored per-combination record) has
`Column = "description"`. -/
theorem c9_description_invisible (df1 df2 : DataFrame) (res : CompareResult)
    (h : (compare_dataframes_by_groups df1 df2).1 = Res.ok res) :
    ("description" ∉ res.column_differences.only_in_df1 ∧
     "description" ∉ res.column_differences.only_in_df2 ∧
     "description" ∉ res.column_differences.common) ∧
    ∀ p ∈ res.modified_groups,
      (∀ ch ∈ p.2.cell_changes, ch.Column ≠ "description") ∧
      (∀ q ∈ p.2.tactic_recency_changes, ∀ e ∈ q.2, ∀ ch ∈ e.2,
        ch.Column ≠ "description") := by
  obtain ⟨msgs, f1, f2, rfl⟩ := ok_res_eq_comparePhase h
  refine ⟨comparePhase_desc_cols msgs f1 f2, ?_⟩
  intro p hp
  obtain ⟨g1, g2, hshape⟩ := comparePhase_modified_shape hp
  constructor
  · intro ch hch
    rw [hshape] at hch
    exact group_cell_changes_desc hch
  · intro q hq
    rw [hshape] at hq
    exact group_trc_desc hq

/-! ### Mutation of the caller's dataframes -/

theorem colVals_mapCol_ne {c c' : String} (h : c' ≠ c) (df : DataFrame) (f : Val → Val) :
    colVals (df.mapCol c f) c' = colVals df c' := by
  simp only [colVals, DataFrame.mapCol, List.map_map]
  apply List.map_congr_left
  intro r hr
  exact getD_rowMapCol_ne h f r

theorem final_states (dfA dfB : DataFrame) :
    (compare_dataframes_by_groups dfA dfB).2.1 = (replaceNullTokens dfA).2 ∧
    ((compare_dataframes_by_groups dfA dfB).2.2 = dfB ∨
     (compare_dataframes_by_groups dfA dfB).2.2 = (replaceNullTokens dfB).2) := by
  unfold compare_dataframes_by_groups
  cases h1 : replaceNullTokens dfA with
  | mk r1 d1 =>
    cases r1 with
    | keyError c => simp
    | ok u =>
      cases h2 : replaceNullTokens dfB with
      | mk r2 d2 =>
        cases r2 with
        | keyError c => simp
        | ok u2 => simp

theorem replaceNullTokens_cols (df : DataFrame) : (replaceNullTokens df).2.cols = df.cols := by
  unfold replaceNullTokens
  by_cases ha : df.hasCol "tactic_id" = true
  · rw [if_pos ha]
    by_cases hb : (df.mapCol "tactic_id" replaceTok).hasCol "tactic_nm" = true
    · rw [if_pos hb]
      rfl
    · rw [if_neg hb]
      rfl
  · rw [if_neg ha]

theorem replaceNullTokens_colVals {c : String} (h1 : c ≠ "tactic_id") (h2 : c ≠ "tactic_nm")
    (df : DataFrame) : colVals (replaceNullTokens df).2 c = colVals df c := by
  unfold replaceNullTokens
  by_cases ha : df.hasCol "tactic_id" = true
  · rw [if_pos ha]
    by_cases hb : (df.mapCol "tactic_id" replaceTok).hasCol "tactic_nm" = true
    · rw [if_pos hb]
      show colVals ((df.mapCol "tactic_id" replaceTok).mapCol "tactic_nm" replaceTok) c =
        colVals df c
      rw [colVals_mapCol_ne h2, colVals_mapCol_ne h1]
    · rw [if_neg hb]
      exact colVals_mapCol_ne h1 df replaceTok
  · rw [if_neg ha]

/-- C4 (amended): the only caller-visible mutation
`compare_dataframes_by_groups` performs on its dataframe arguments is the
in-place null-token normalization of `tactic_id` and `tactic_nm` — the
column lists and the values of every other column are unchanged after the
call (filtering, sorting and key-column handling happen on copies). -/
theorem c4_no_other_mutation (df1 df2 : DataFrame) (c : String)
    (h1 : c ≠ "tactic_id") (h2 : c ≠ "tactic_nm") :
    (compare_dataframes_by_groups df1 df2).2.1.cols = df1.cols ∧
    (compare_dataframes_by_groups df1 df2).2.2.cols = df2.cols ∧
    colVals (compare_dataframes_by_groups df1 df2).2.1 c = colVals df1 c ∧
    colVals (compare_dataframes_by_groups df1 df2).2.2 c = colVals df2 c := by
  obtain ⟨hA, hB⟩ := final_states df1 df2
  refine ⟨?_, ?_, ?_, ?_⟩
  · rw [hA, replaceNullTokens_cols]
  · rcases hB with hB | hB
    · rw [hB]
    · rw [hB, replaceNullTokens_cols]
  · rw [hA, replaceNullTokens_colVals h1 h2]
  · rcases hB with hB | hB
    · rw [hB]
    · rw [hB, replaceNullTokens_colVals h1 h2]

/-- C4 (counterexample): the claim that the dataframe arguments are never
mutated is false — a `tactic_id` value `"NULL"` in File A is replaced by
the missing value in the caller's dataframe. -/
theorem c4_counterexample : (compare_dataframes_by_groups dfTok (dfS 10)).2.1 ≠ dfTok := by
  decide

/-! ### Null-token collapse of combination keys -/

/-- C8: a row with `tactic_id = ""` and a row with `tactic_id = "NULL"`
(same `recency_flag`) receive, after the orchestrator's null-token
normalization, the same combination key, namely the canonical marker
`'NULL'` paired with the `recency_flag`. -/
theorem c8_null_token_collapse (r1 r2 : Row) (rf : Val)
    (h1 : r1.getD "tactic_id" = Val.str "")
    (h2 : r2.getD "tactic_id" = Val.str "NULL")
    (h3 : r1.getD "recency_flag" = rf) (h4 : r2.getD "recency_flag" = rf) :
    comboKey (rowNormalizeTactics r1) = comboKey (rowNormalizeTactics r2) ∧
    comboKey (rowNormalizeTactics r1) = (Val.str "NULL", rf) := by
  have k1 : (rowNormalizeTactics r1).getD "tactic_id" = Val.na := by
    rw [rowNormalizeTactics, getD_rowMapCol_ne (by decide),
      getD_rowMapCol_eq_of_getD h1 (by decide)]
    decide
  have k2 : (rowNormalizeTactics r2).getD "tactic_id" = Val.na := by
    rw [rowNormalizeTactics, getD_rowMapCol_ne (by decide),
      getD_rowMapCol_eq_of_getD h2 (by decide)]
    decide
  have rec1 : (rowNormalizeTactics r1).getD "recency_flag" = rf := by
    rw [getD_rowNormalizeTactics_ne (by decide) (by decide), h3]
  have rec2 : (rowNormalizeTactics r2).getD "recency_flag" = rf := by
    rw [getD_rowNormalizeTactics_ne (by decide) (by decide), h4]
  constructor
  · simp [comboKey, k1, k2, rec1, rec2]
  · simp [comboKey, k1, rec1, fillNA, Val.isna]

/-! ### Stored per-combination records -/

/-- C5 (amended): the record stored for a changed combination holds only
the key `cell_changes`; the descriptive fields `tactic_nm`, `channel_nm`
and `dataset_nm` are not stored. -/
theorem c5_stored_record_fields (df1 df2 : DataFrame) (res : CompareResult)
    (h : (compare_dataframes_by_groups df1 df2).1 = Res.ok res) :
    ∀ p ∈ res.modified_groups, ∀ q ∈ p.2.tactic_recency_changes,
      q.2.map Prod.fst = ["cell_changes"] ∧ q.2.lookup "tactic_nm" = none ∧
      q.2.lookup "channel_nm" = none ∧ q.2.lookup "dataset_nm" = none := by
  obtain ⟨msgs, f1, f2, rfl⟩ := ok_res_eq_comparePhase h
  intro p hp q hq
  obtain ⟨g1, g2, hshape⟩ := comparePhase_modified_shape hp
  rw [hshape] at hq
  obtain ⟨k, rows1, rows2, rfl⟩ := group_changed_shape hq
  exact ⟨rfl, rfl, rfl, rfl⟩

/-- C5 (counterexample): in a concrete comparison with one changed
combination, the stored record's field list is exactly `["cell_changes"]`
and it carries no `tactic_nm` entry — contradicting the claim that the
descriptive fields are stored with the record. -/
theorem c5_counterexample :
    (match (compare_dataframes_by_groups (dfS 10) (dfS 20)).1 with
     | .ok res => res.modified_groups.map (fun p =>
         (p.1, p.2.tactic_recency_changes.map (fun q =>
           (q.1, q.2.map Prod.fst, q.2.lookup "tactic_nm"))))
     | .keyError _ => []) =
    [(Val.int 1, [((Val.int 5, Val.str "history"), ["cell_changes"], none)])] := by
  rfl

/-! ### Missing recommended columns -/

/-- C3: a dataset lacking the `tactic_id` column makes
`compare_dataframes_by_groups` raise `KeyError` at the null-token
normalization (src/utils.py line 23) before the missing-column validation
of lines 32-37 can run — the comparison does not complete. -/
theorem c3_missing_column_raises :
    (compare_dataframes_by_groups dfNoTactic (dfS 10)).1 = Res.keyError "tactic_id" := by
  decide

/-! ### The timestamp fast path and value equivalence -/

/-- C1 (counterexample): `compare_values` on the timezone-qualified
timestamp and the bare date returns `false`, not `true` as claimed. -/
theorem c1_counterexample :
    compare_values (Val.str "2024-01-05 10:00:00.000000+00:00") (Val.str "2024-01-05")
      = false := by
  decide

/-- C1 (amended): the fast path truncates File A's value to
`"2024-01-05"`, but File B's bare date is normalized by full datetime
parsing to `"2024-01-05T00:00:00"`; the two normal forms differ, so
`compare_values` returns `false` and a Cell Change with
`Change_Type = "Value Modified"` is emitted for the cell. -/
theorem c1_fast_path_mismatch :
    normalize_date_or_timestamp (Val.str "2024-01-05 10:00:00.000000+00:00")
      = Val.str "2024-01-05" ∧
    normalize_date_or_timestamp (Val.str "2024-01-05") = Val.str "2024-01-05T00:00:00" ∧
    compare_values (Val.str "2024-01-05 10:00:00.000000+00:00") (Val.str "2024-01-05")
      = false ∧
    (compare_tactic_recency_combination
        [[("timestamp", Val.str "2024-01-05 10:00:00.000000+00:00")]]
        [[("timestamp", Val.str "2024-01-05")]]
        (Val.int 5) (Val.str "history") ["timestamp"] (Val.int 1)).cell_changes =
      [{ dataset_id := Val.int 1, tactic_id := Val.int 5, recency_flag := Val.str "history",
         Row_Index := none, Column := "timestamp",
         File_A_Value := Val.str "2024-01-05 10:00:00.000000+00:00",
         File_B_Value := Val.str "2024-01-05", Change_Type := "Value Modified" }] := by
  refine ⟨by decide, by decide, by decide, by decide⟩

/-! ### Idempotence of normalization -/

/-- C2 (counterexample): normalization is not idempotent — the fast path
truncates the timezone-qualified timestamp to `"2024-01-05"`, and
normalizing that again yields `"2024-01-05T00:00:00"`. -/
theorem c2_counterexample :
    normalize_date_or_timestamp (normalize_date_or_timestamp
        (Val.str "2024-01-05 10:00:00.000000+00:00")) ≠
      normalize_date_or_timestamp (Val.str "2024-01-05 10:00:00.000000+00:00") := by
  decide

/-- C2 (amended): `normalize_date_or_timestamp` is idempotent on every
value that does not trigger the timezone fast path. -/
theorem c2_idempotent_off_fastpath (v : Val) (h : isFastPath v = false) :
    normalize_date_or_timestamp (normalize_date_or_timestamp v) =
      normalize_date_or_timestamp v :=
  normalize_idem_of_not_fastPath h

/-! ### The unreachable date-only stage -/

/-- C10: the final date-only parsing stage of `normalize_date_or_timestamp`
is dead code — since it uses the same parser as the preceding full-datetime
stage, the function is extensionally equal to the variant whose chain ends
after the full-datetime stage with a fall-through returning the input
unchanged. -/
theorem c10_date_stage_unreachable (v : Val) :
    normalize_date_or_timestamp v = normalize_no_date_stage v := by
  cases v with
  | na => rfl
  | int n => rfl
  | str s =>
    simp only [normalize_date_or_timestamp, normalize_no_date_stage]
    by_cases hfp : fastPathB s.data = true
    · rw [if_pos hfp, if_pos hfp]
    · rw [if_neg hfp, if_neg hfp]
      cases hp : parseDT s.data <;> simp [hp]

/-! ### Witnesses -/

/-- Witness for C2 (amended) at the non-fast-path value `"hello"`. -/
theorem c2_witness :
    isFastPath (Val.str "hello") = false ∧
    normalize_date_or_timestamp (normalize_date_or_timestamp (Val.str "hello")) =
      normalize_date_or_timestamp (Val.str "hello") :=
  ⟨by decide, c2_idempotent_off_fastpath (Val.str "hello") (by decide)⟩

/-- Witness for C4 (amended) at concrete dataframes and the column
`dataset_id`. -/
theorem c4_witness :
    ("dataset_id" ≠ "tactic_id" ∧ "dataset_id" ≠ "tactic_nm") ∧
    ((compare_dataframes_by_groups dfTok (dfS 10)).2.1.cols = dfTok.cols ∧
     (compare_dataframes_by_groups dfTok (dfS 10)).2.2.cols = (dfS 10).cols ∧
     colVals (compare_dataframes_by_groups dfTok (dfS 10)).2.1 "dataset_id" =
       colVals dfTok "dataset_id" ∧
     colVals (compare_dataframes_by_groups dfTok (dfS 10)).2.2 "dataset_id" =
       colVals (dfS 10) "dataset_id") :=
  ⟨⟨by decide, by decide⟩,
   c4_no_other_mutation dfTok (dfS 10) "dataset_id" (by decide) (by decide)⟩

/-- Witness for C5 (amended) at the concrete comparison of `dfS 10` with
`dfS 20`. -/
theorem c5_witness :
    (compare_dataframes_by_groups (dfS 10) (dfS 20)).1 = Res.ok resS ∧
    ∀ p ∈ resS.modified_groups, ∀ q ∈ p.2.tactic_recency_changes,
      q.2.map Prod.fst = ["cell_changes"] ∧ q.2.lookup "tactic_nm" = none ∧
      q.2.lookup "channel_nm" = none ∧ q.2.lookup "dataset_nm" = none :=
  ⟨by rfl, c5_stored_record_fields (dfS 10) (dfS 20) resS (by rfl)⟩

/-- Witness for C6 at the concrete dataframe `dfS 10`. -/
theorem c6_witness :
    ((dfS 10).hasCol "tactic_id" = true ∧ (dfS 10).hasCol "tactic_nm" = true ∧
     (dfS 10).hasCol "dataset_id" = true ∧ (dfS 10).hasCol "recency_flag" = true) ∧
    (∃ res, (compare_dataframes_by_groups (dfS 10) (dfS 10)).1 = Res.ok res ∧
      res.modified_groups = [] ∧
      ∀ r ∈ (dfS 10).rows, r.getD "recency_flag" = Val.str "history" →
        r.getD "dataset_id" ∈ res.identical_groups) :=
  ⟨⟨by decide, by decide, by decide, by decide⟩,
   c6_self_comparison (dfS 10) (by decide) (by decide) (by decide) (by decide)⟩

/-- Witness for C7 at a combination with two rows in File A and one in
File B. -/
theorem c7_witness :
    ("col" ∈ ["col"] ∧ ("col" : String) ≠ "description" ∧
      [rowS 10].length ≤ 1 ∧ 1 < [rowS 10, rowS 11].length) ∧
    ∃ ch ∈ (compare_tactic_recency_combination [rowS 10, rowS 11] [rowS 10]
        (Val.int 5) (Val.str "history") ["col"] (Val.int 1)).cell_changes,
      ch.Column = "col" ∧ ch.Row_Index = some 1 ∧
        ch.File_B_Value = Val.str "ROW_REMOVED" ∧ ch.Change_Type = "Row Removed" :=
  ⟨⟨by decide, by decide, by decide, by decide⟩,
   (c7_forced_row_changes [rowS 10, rowS 11] [rowS 10] (Val.int 5) (Val.str "history")
     ["col"] (Val.int 1)).1 1 "col" (by decide) (by decide) (by decide) (by decide)⟩

/-- Witness for C8 at concrete rows holding the empty string and the
literal token `"NULL"`. -/
theorem c8_witness :
    (rowEmptyTok.getD "tactic_id" = Val.str "" ∧
     rowNullTok.getD "tactic_id" = Val.str "NULL" ∧
     rowEmptyTok.getD "recency_flag" = Val.str "history" ∧
     rowNullTok.getD "recency_flag" = Val.str "history") ∧
    (comboKey (rowNormalizeTactics rowEmptyTok) = comboKey (rowNormalizeTactics rowNullTok) ∧
     comboKey (rowNormalizeTactics rowEmptyTok) = (Val.str "NULL", Val.str "history")) :=
  ⟨⟨by decide, by decide, by decide, by decide⟩,
   c8_null_token_collapse rowEmptyTok rowNullTok (Val.str "history")
     (by decide) (by decide) (by decide) (by decide)⟩

/-- Witness for C9 at the concrete comparison of `dfS 10` with `dfS 20`. -/
theorem c9_witness :
    (compare_dataframes_by_groups (dfS 10) (dfS 20)).1 = Res.ok resS ∧
    (("description" ∉ resS.column_differences.only_in_df1 ∧
      "description" ∉ resS.column_differences.only_in_df2 ∧
      "description" ∉ resS.column_differences.common) ∧
     ∀ p ∈ resS.modified_groups,
       (∀ ch ∈ p.2.cell_changes, ch.Column ≠ "description") ∧
       (∀ q ∈ p.2.tactic_recency_changes, ∀ e ∈ q.2, ∀ ch ∈ e.2,
         ch.Column ≠ "description")) :=
  ⟨by rfl, c9_description_invisible (dfS 10) (dfS 20) resS (by rfl)⟩
